import Mathlib

/-!
Shallow embedding of the log-ingestion and record-correlation pipeline of
`src/streamlit_app.py` (functions `load_json_logs`, `add_file_sizes`,
`load_country_logs`), together with theorems settling the specification
claims about it.

Modelling conventions:
* JSON values parsed by `json.load` are the inductive `JsonValue`; a parsed
  log file is a top-level JSON object, i.e. a `Record` (association list of
  fields).  A pandas `DataFrame` built from a list of parsed dicts is the
  list of those records; `row.get k` returning Python `None` for an absent
  column is `Option.none`.
* The filesystem is a snapshot `FS`: a finite map from paths (component
  lists, as produced by `os.path.join`) to nodes.  A file node carries its
  byte size (`os.path.getsize`) and its content as seen by
  `open` + `json.load`: a valid JSON object, malformed JSON (raising
  `json.JSONDecodeError`), or unreadable (raising `OSError` on read).
* Python exceptions are the error side of `Except PyErr`; `st.warning` /
  `st.info` diagnostic messages are accumulated as `Diag` values.
* Machine floats are modelled as exact rationals; Python's `round(x, 5)`
  (banker's rounding) is `pyRound5`.
-/

/-- A JSON value as produced by `json.load`. -/
inductive JsonValue where
  | null
  | boolean (b : Bool)
  | num (q : ℚ)
  | str (s : String)
  | arr (elems : List JsonValue)
  | obj (fields : List (String × JsonValue))

mutual

/-- Structural equality of JSON values (Python `==` on the parsed data). -/
def JsonValue.beq : JsonValue → JsonValue → Bool
  | .null, .null => true
  | .boolean a, .boolean b => a == b
  | .num a, .num b => a == b
  | .str a, .str b => a == b
  | .arr xs, .arr ys => JsonValue.beqList xs ys
  | .obj xs, .obj ys => JsonValue.beqFields xs ys
  | _, _ => false

/-- Elementwise equality of JSON arrays. -/
def JsonValue.beqList : List JsonValue → List JsonValue → Bool
  | [], [] => true
  | x :: xs, y :: ys => JsonValue.beq x y && JsonValue.beqList xs ys
  | _, _ => false

/-- Fieldwise equality of JSON objects. -/
def JsonValue.beqFields : List (String × JsonValue) → List (String × JsonValue) → Bool
  | [], [] => true
  | (k1, v1) :: xs, (k2, v2) :: ys => k1 == k2 && JsonValue.beq v1 v2 && JsonValue.beqFields xs ys
  | _, _ => false

end

theorem JsonValue.beq_iff (a b : JsonValue) : JsonValue.beq a b = true ↔ a = b := by
  induction a, b using JsonValue.beq.induct with
  | motive_2 xs ys => exact JsonValue.beqFields xs ys = true ↔ xs = ys
  | motive_3 xs ys => exact JsonValue.beqList xs ys = true ↔ xs = ys
  | case1 => simp [JsonValue.beq]
  | case2 a b => simp [JsonValue.beq]
  | case3 a b => simp [JsonValue.beq]
  | case4 a b => simp [JsonValue.beq]
  | case5 xs ys ih => simpa [JsonValue.beq] using ih
  | case6 xs ys ih => simpa [JsonValue.beq] using ih
  | case7 a b h1 h2 h3 h4 h5 h6 =>
    constructor
    · intro h
      exfalso
      cases a <;> cases b <;> simp_all [JsonValue.beq]
    · intro h
      subst h
      exfalso
      cases a <;> simp_all
  | case8 => simp [JsonValue.beqList]
  | case9 x xs y ys ih1 ih2 => simp [JsonValue.beqList, ih1, ih2]
  | case10 xs ys h1 h2 =>
    constructor
    · intro h; exfalso; cases xs <;> cases ys <;> simp_all [JsonValue.beqList]
    · intro h
      subst h
      exfalso
      cases xs with
      | nil => exact h1 rfl rfl
      | cons x t => exact h2 x t x t rfl rfl
  | case11 => simp [JsonValue.beqFields]
  | case12 k1 v1 xs k2 v2 ys ih1 ih2 => simp [JsonValue.beqFields, ih1, ih2]
  | case13 xs ys h1 h2 =>
    constructor
    · intro h
      exfalso
      cases xs with
      | nil =>
        cases ys with
        | nil => exact h1 rfl rfl
        | cons y t => simp [JsonValue.beqFields] at h
      | cons x t =>
        cases ys with
        | nil => simp [JsonValue.beqFields] at h
        | cons y u => exact h2 x.1 x.2 t y.1 y.2 u rfl rfl
    · intro h
      subst h
      exfalso
      cases xs with
      | nil => exact h1 rfl rfl
      | cons x t => exact h2 x.1 x.2 t x.1 x.2 t rfl rfl

instance : BEq JsonValue := ⟨JsonValue.beq⟩

instance : LawfulBEq JsonValue where
  eq_of_beq h := (JsonValue.beq_iff _ _).1 h
  rfl := (JsonValue.beq_iff _ _).2 rfl

instance : DecidableEq JsonValue := fun a b =>
  decidable_of_iff (JsonValue.beq a b = true) (JsonValue.beq_iff a b)

/-- A parsed log file: the fields of its top-level JSON object
(a Python dict, keys unique). -/
abbrev Record := List (String × JsonValue)

/-- `row.get k`: the value of field `k`, or Python `None` when absent. -/
def Record.get (r : Record) (k : String) : Option JsonValue :=
  List.lookup k r

/-- Python truthiness of a value that may be `None`: `None`, `False`, `0`,
`""`, `[]` and `{}` are falsy, everything else truthy. -/
def truthy : Option JsonValue → Bool
  | none => false
  | some .null => false
  | some (.boolean b) => b
  | some (.num q) => decide (q ≠ 0)
  | some (.str s) => !(s == "")
  | some (.arr xs) => !xs.isEmpty
  | some (.obj fs) => !fs.isEmpty

/-- Python `a or b`: `a` when truthy, otherwise `b`. -/
def pyOr (a b : Option JsonValue) : Option JsonValue :=
  if truthy a then a else b

/-- Python `repr` of a JSON value (string rendering used inside containers).
Number rendering at the library boundary uses Lean's rational rendering. -/
def pyRepr : JsonValue → String
  | .null => "None"
  | .boolean true => "True"
  | .boolean false => "False"
  | .num q => toString q
  | .str s => "'" ++ s ++ "'"
  | .arr xs => "[" ++ String.intercalate ", " (xs.attach.map fun x => pyRepr x.1) ++ "]"
  | .obj fs =>
      "\x7b" ++
        String.intercalate ", " (fs.attach.map fun kv => "'" ++ kv.1.1 ++ "': " ++ pyRepr kv.1.2)
        ++ "\x7d"
decreasing_by
  · simp only [JsonValue.arr.sizeOf_spec]
    have := List.sizeOf_lt_of_mem x.2
    omega
  · simp only [JsonValue.obj.sizeOf_spec]
    have h1 := List.sizeOf_lt_of_mem kv.2
    have h2 : sizeOf kv.1.2 < sizeOf kv.1 := by
      obtain ⟨a, b⟩ := kv.1
      simp
    omega

/-- Python `str` / f-string formatting of a JSON value: a bare string for
strings, `repr` otherwise. -/
def pyStr : JsonValue → String
  | .str s => s
  | v => pyRepr v

/-- A filesystem path as a list of components (the result of joining the
components with `os.path.join`). -/
abbrev FsPath := List String

/-- Content of a file as seen by `open` + `json.load`. -/
inductive FileContent where
  | valid (r : Record)
  | malformed
  | unreadable
  deriving DecidableEq

/-- A filesystem node: a file with its byte size and content, or a
directory with its `st_size` and its entries in enumeration order. -/
inductive FsNode where
  | file (size : Nat) (content : FileContent)
  | dir (size : Nat) (entries : List String)
  deriving DecidableEq

/-- A filesystem snapshot: a finite map from paths to nodes. -/
structure FS where
  nodes : List (FsPath × FsNode)

/-- Resolve a path in the snapshot. -/
def FS.lookup (fs : FS) (p : FsPath) : Option FsNode :=
  List.lookup p fs.nodes

/-- `os.path.exists`. -/
def osPathExists (fs : FS) (p : FsPath) : Bool :=
  (fs.lookup p).isSome

/-- `os.path.isdir`. -/
def osPathIsdir (fs : FS) (p : FsPath) : Bool :=
  match fs.lookup p with
  | some (.dir _ _) => true
  | _ => false

/-- A raised Python exception. -/
inductive PyErr where
  | osError (msg : String)
  | keyError (key : String)
  | valueError (msg : String)
  deriving DecidableEq

/-- `os.listdir`: the entries of a directory, raising `OSError` on a
non-directory or missing path. -/
def osListdir (fs : FS) (p : FsPath) : Except PyErr (List String) :=
  match fs.lookup p with
  | some (.dir _ entries) => .ok entries
  | some (.file _ _) => .error (.osError "not a directory")
  | none => .error (.osError "no such directory")

/-- A user-visible diagnostic (`st.warning` / `st.info` message). -/
inductive Diag where
  | directoryNotFound (p : FsPath)
  | noJsonFiles (p : FsPath)
  | couldNotDecode (filename : String)
  | missingFolders (country : String)
  | skippingEmpty (country : String)
  | errorProcessing (country : String) (e : PyErr)
  | baseDirNotFound (p : FsPath)
  deriving DecidableEq

/-- `filename.endswith(".json")`, written over the character list so that
it evaluates by kernel reduction. -/
def endsWithJson (f : String) : Bool :=
  match f.toList.reverse with
  | 'n' :: 'o' :: 's' :: 'j' :: '.' :: _ => true
  | _ => false

/-- The file-reading loop of `load_json_logs`: open each listed file and
`json.load` it; a decode failure is skipped with a diagnostic, while a read
failure raises. -/
def loadJsonFiles (fs : FS) (log_dir : FsPath) :
    List String → Except PyErr (List Record × List Diag)
  | [] => .ok ([], [])
  | filename :: rest =>
    match fs.lookup (log_dir ++ [filename]) with
    | some (.file _ (.valid r)) =>
      match loadJsonFiles fs log_dir rest with
      | .ok (rs, ds) => .ok (r :: rs, ds)
      | .error e => .error e
    | some (.file _ .malformed) =>
      match loadJsonFiles fs log_dir rest with
      | .ok (rs, ds) => .ok (rs, .couldNotDecode filename :: ds)
      | .error e => .error e
    | some (.file _ .unreadable) => .error (.osError "unreadable file")
    | some (.dir _ _) => .error (.osError "is a directory")
    | none => .error (.osError "no such file")

/-- `load_json_logs(log_dir)`: collect the parsed records of the `.json`
files of a directory together with the emitted diagnostics.  (The source
function also has unused `input_dir`/`output_dir` parameters, omitted.) -/
def load_json_logs (fs : FS) (log_dir : FsPath) : Except PyErr (List Record × List Diag) :=
  if ¬ osPathExists fs log_dir then
    .ok ([], [.directoryNotFound log_dir])
  else
    match osListdir fs log_dir with
    | .error e => .error e
    | .ok entries =>
      let json_files := entries.filter endsWithJson
      if json_files.isEmpty then
        .ok ([], [.noJsonFiles log_dir])
      else
        loadJsonFiles fs log_dir json_files

/-- A pandas datetime value, modelling the result of `pd.to_datetime` at
the library boundary. -/
inductive Timestamp where
  | nat
  | dt (iso : String)
  | epoch (q : ℚ)
  deriving DecidableEq

/-- Model of the datetime strings accepted by `pd.to_datetime`: an ISO-style
`YYYY-MM-DD...` prefix. -/
def validTimestampStr (s : String) : Bool :=
  match s.toList with
  | y1 :: y2 :: y3 :: y4 :: '-' :: m1 :: m2 :: '-' :: d1 :: d2 :: _ =>
      [y1, y2, y3, y4, m1, m2, d1, d2].all Char.isDigit
  | _ => false

/-- `pd.to_datetime` on one cell: missing values become `NaT`, strings are
parsed (raising on an unrecognized format), numbers are epoch offsets, and
other values raise. -/
def pdToDatetime : Option JsonValue → Except PyErr Timestamp
  | none => .ok .nat
  | some .null => .ok .nat
  | some (.str s) => if validTimestampStr s then .ok (.dt s) else .error (.valueError s)
  | some (.num q) => .ok (.epoch q)
  | some (.boolean _) => .error (.valueError "boolean")
  | some (.arr _) => .error (.valueError "array")
  | some (.obj _) => .error (.valueError "object")

/-- One row of the merged frame: the contributing input (left) and output
(right) records. -/
structure JoinedRow where
  left : Record
  right : Record
  deriving DecidableEq

/-- Column access on a merged row: the input record's columns, then the
output record's.  (The two schemas share no column names besides the two
differently-named join keys, which are both kept by `pd.merge`.) -/
def JoinedRow.get (r : JoinedRow) (k : String) : Option JsonValue :=
  match r.left.get k with
  | some v => some v
  | none => r.right.get k

/-- Whether a frame built from a list of records has column `k`
(the union of the records' keys). -/
def hasColumn (df : List Record) (k : String) : Bool :=
  df.any fun r => r.any fun kv => kv.1 == k

/-- `pd.merge(input_df, output_df, left_on="image_id",
right_on="image_id_from_log", how="inner")`: raises `KeyError` when a key
column is absent, otherwise pairs every input record with every output
record whose `image_id_from_log` equals its `image_id` (cross-product on
duplicate keys; missing keys on both sides compare equal, as pandas merges
NaN keys). -/
def mergeInner (input_df output_df : List Record) : Except PyErr (List JoinedRow) :=
  if ¬ hasColumn input_df "image_id" then .error (.keyError "image_id")
  else if ¬ hasColumn output_df "image_id_from_log" then .error (.keyError "image_id_from_log")
  else .ok (input_df.flatMap fun i =>
    (output_df.filter fun o => i.get "image_id" == o.get "image_id_from_log").map
      fun o => ⟨i, o⟩)

/-- Round a rational to the nearest integer, ties to even (Python's
`round`). -/
def roundHalfEven (q : ℚ) : ℤ :=
  let f := ⌊q⌋
  let frac := q - f
  if frac < 1 / 2 then f
  else if 1 / 2 < frac then f + 1
  else if f % 2 = 0 then f else f + 1

/-- Python `round(x, 5)` on exact rationals. -/
def pyRound5 (q : ℚ) : ℚ :=
  (roundHalfEven (q * 100000) : ℚ) / 100000

/-- `get_size_mb(path)` (nested in `add_file_sizes`):
`round(os.path.getsize(path) / (1024 * 1024), 5)` when the path exists,
else `None`. -/
def get_size_mb (fs : FS) (path : FsPath) : Option ℚ :=
  match fs.lookup path with
  | some (.file size _) => some (pyRound5 ((size : ℚ) / (1024 * 1024)))
  | some (.dir size _) => some (pyRound5 ((size : ℚ) / (1024 * 1024)))
  | none => none

/-- A merged row after timestamp normalization and country tagging, before
size augmentation. -/
structure PreRow where
  row : JoinedRow
  timestamp : Timestamp
  country : String
  deriving DecidableEq

/-- A row of a finished country dataset. -/
structure OutRow where
  row : JoinedRow
  timestamp : Timestamp
  country : String
  input_file_size : Option ℚ
  output_file_size : Option ℚ
  deriving DecidableEq

/-- `add_file_sizes(df, country, base_dir="data", input_dir="input",
output_dir="output")`: per row, resolve the identifier as
`row.get("image_id") or row.get("image_id_from_log")`; when falsy, record
`None` sizes and continue; otherwise look up the sizes of
`os.path.join(base_dir, country, input_dir, f"{image_id}")` and the
`output_dir` counterpart. -/
def add_file_sizes (fs : FS) (df : List PreRow) (country : String)
    (base_dir : String := "data") (input_dir : String := "input")
    (output_dir : String := "output") : List OutRow :=
  df.map fun r =>
    let image_id := pyOr (r.row.get "image_id") (r.row.get "image_id_from_log")
    if ¬ truthy image_id then
      ⟨r.row, r.timestamp, r.country, none, none⟩
    else
      let name := match image_id with | some v => pyStr v | none => "None"
      let input_path : FsPath := [base_dir, country, input_dir, name]
      let output_path : FsPath := [base_dir, country, output_dir, name]
      ⟨r.row, r.timestamp, r.country, get_size_mb fs input_path, get_size_mb fs output_path⟩

/-- Apply a fallible cell operation to every row of a column, propagating
the first raised exception (`pd.to_datetime` over a series). -/
def mapExcept {α β : Type} (f : α → Except PyErr β) : List α → Except PyErr (List β)
  | [] => .ok []
  | x :: xs =>
    match f x with
    | .error e => .error e
    | .ok y =>
      match mapExcept f xs with
      | .error e => .error e
      | .ok ys => .ok (y :: ys)

/-- The body of the per-country `try` block of `load_country_logs`: merge
the two frames, apply `pd.to_datetime` to the merged `timestamp` column
(`KeyError` when neither frame contributes that column), tag the country,
and augment with file sizes (at the *default* `base_dir`/`input_dir`/
`output_dir` of `add_file_sizes`, as in the source call).  Any raised
exception surfaces as the error case. -/
def processCountry (fs : FS) (country : String)
    (input_df output_df : List Record) : Except PyErr (List OutRow) :=
  match mergeInner input_df output_df with
  | .error e => .error e
  | .ok joined =>
    if ¬ (hasColumn input_df "timestamp" || hasColumn output_df "timestamp") then
      .error (.keyError "timestamp")
    else
      match mapExcept (fun r => pdToDatetime (r.get "timestamp")) joined with
      | .error e => .error e
      | .ok tss =>
        let tagged := (joined.zip tss).map fun p => PreRow.mk p.1 p.2 country
        .ok (add_file_sizes fs tagged country)

/-- Python dict assignment `m[k] = v`: overwrite in place, or append a new
key. -/
def dictSet (m : List (String × List OutRow)) (k : String) (v : List OutRow) :
    List (String × List OutRow) :=
  if (List.lookup k m).isSome then
    m.map fun kv => if kv.1 == k then (k, v) else kv
  else
    m ++ [(k, v)]

/-- Python dict lookup `m[k]` / `m.get(k)`. -/
def dictFind (m : List (String × List OutRow)) (k : String) : Option (List OutRow) :=
  List.lookup k m

/-- The per-country loop of `load_country_logs` over the entries of the
base directory.  Note that the two `load_json_logs` calls sit *outside*
the `try` block: an exception they raise propagates out of the loop. -/
def processCountries (fs : FS) (base_dir : FsPath) :
    List String → List (String × List OutRow) × List Diag →
    Except PyErr (List (String × List OutRow) × List Diag)
  | [], acc => .ok acc
  | country :: rest, (m, diags) =>
    let input_dir := base_dir ++ [country, "input_logs"]
    let output_dir := base_dir ++ [country, "output_logs"]
    if ¬ (osPathIsdir fs input_dir && osPathIsdir fs output_dir) then
      processCountries fs base_dir rest (m, diags ++ [.missingFolders country])
    else
      match load_json_logs fs input_dir with
      | .error e => .error e
      | .ok (input_df, d1) =>
        match load_json_logs fs output_dir with
        | .error e => .error e
        | .ok (output_df, d2) =>
          if input_df.isEmpty || output_df.isEmpty then
            processCountries fs base_dir rest
              (m, diags ++ d1 ++ d2 ++ [.skippingEmpty country])
          else
            match processCountry fs country input_df output_df with
            | .ok df =>
                processCountries fs base_dir rest (dictSet m country df, diags ++ d1 ++ d2)
            | .error e =>
                processCountries fs base_dir rest
                  (m, diags ++ d1 ++ d2 ++ [.errorProcessing country e])

/-- `load_country_logs(base_dir=BASE_DIR)`: the mapping from country name
to dataset, together with the emitted diagnostics, or the exception that
escaped the loop. -/
def load_country_logs (fs : FS) (base_dir : FsPath := ["data"]) :
    Except PyErr (List (String × List OutRow) × List Diag) :=
  if ¬ osPathExists fs base_dir then
    .ok ([], [.baseDirNotFound base_dir])
  else
    match osListdir fs base_dir with
    | .error e => .error e
    | .ok countries => processCountries fs base_dir countries ([], [])

/-! ## Measurement predicates used by the claim statements -/

/-- The path holds a file that parses as valid JSON. -/
def isValidFile (fs : FS) (p : FsPath) : Bool :=
  match fs.lookup p with
  | some (.file _ (.valid _)) => true
  | _ => false

/-- The path holds a file whose content is malformed JSON. -/
def isMalformedFile (fs : FS) (p : FsPath) : Bool :=
  match fs.lookup p with
  | some (.file _ .malformed) => true
  | _ => false

/-- The path holds a file that can be read (its content either parses or
fails to decode, but reading does not raise). -/
def isReadableFile (fs : FS) (p : FsPath) : Bool :=
  match fs.lookup p with
  | some (.file _ (.valid _)) => true
  | some (.file _ .malformed) => true
  | _ => false

/-- The diagnostic is a "could not decode" warning. -/
def isDecodeDiag : Diag → Bool
  | .couldNotDecode _ => true
  | _ => false

/-! ## Witness and counterexample fixtures -/

/-- The cross-product row list of the inner join. -/
def joinRows (input_df output_df : List Record) : List JoinedRow :=
  input_df.flatMap fun i =>
    (output_df.filter fun o => i.get "image_id" == o.get "image_id_from_log").map
      fun o => JoinedRow.mk i o

/-- Witness fixture: a one-record input log. -/
def recInW : Record :=
  [("image_id", .str "abc123"), ("timestamp", .str "2024-01-01T00:00:00Z")]

/-- Witness fixture: a one-record output log. -/
def recOutW : Record :=
  [("image_id_from_log", .str "abc123"), ("inference_time_seconds", .num (21 / 50))]

/-- Witness fixture: a base tree with one country whose input and output
logs hold one matching record each. -/
def fsJoinW : FS := ⟨[
  (["data"], .dir 4096 ["usa"]),
  (["data", "usa"], .dir 4096 ["input_logs", "output_logs"]),
  (["data", "usa", "input_logs"], .dir 4096 ["a.json"]),
  (["data", "usa", "output_logs"], .dir 4096 ["b.json"]),
  (["data", "usa", "input_logs", "a.json"], .file 100 (.valid recInW)),
  (["data", "usa", "output_logs", "b.json"], .file 50 (.valid recOutW))]⟩

/-- Witness fixture: one country whose input log folder holds no JSON
files at all, so its input record list is empty. -/
def fsEmptyW : FS := ⟨[
  (["data"], .dir 4096 ["empty1"]),
  (["data", "empty1"], .dir 4096 ["input_logs", "output_logs"]),
  (["data", "empty1", "input_logs"], .dir 4096 []),
  (["data", "empty1", "output_logs"], .dir 4096 ["b.json"]),
  (["data", "empty1", "output_logs", "b.json"], .file 50 (.valid recOutW))]⟩

/-- Witness fixture: one already-joined, tagged row for the sample
records. -/
def preRowW : PreRow := ⟨⟨recInW, recOutW⟩, .dt "2024-01-01T00:00:00Z", "usa"⟩

/-- Witness fixture: an input artifact of 1.5 MiB on disk, no output
artifact. -/
def fsSizeW : FS := ⟨[(["data", "usa", "input", "abc123"], .file 1572864 .malformed)]⟩

/-- Witness fixture: a joined row whose identifiers are both the empty
string. -/
def preRowNoIdW : PreRow :=
  ⟨⟨[("image_id", .str ""), ("timestamp", .str "2024-01-01T00:00:00Z")],
    [("image_id_from_log", .str "")]⟩, .dt "2024-01-01T00:00:00Z", "usa"⟩

/-- Counterexample fixture for C6: the artifact files sit in the same
`input_logs`/`output_logs` folders as the JSON logs (as the claim's layout
prescribes), and no `input`/`output` folders exist. -/
def fsC6 : FS := ⟨[
  (["data"], .dir 4096 ["c"]),
  (["data", "c"], .dir 4096 ["input_logs", "output_logs"]),
  (["data", "c", "input_logs"], .dir 4096 ["i.json", "img1"]),
  (["data", "c", "output_logs"], .dir 4096 ["o.json", "img1"]),
  (["data", "c", "input_logs", "i.json"], .file 100
    (.valid [("image_id", .str "img1"), ("timestamp", .str "2024-01-02T00:00:00Z")])),
  (["data", "c", "output_logs", "o.json"], .file 90
    (.valid [("image_id_from_log", .str "img1"), ("inference_time_seconds", .num 1)])),
  (["data", "c", "input_logs", "img1"], .file 1048576 .malformed),
  (["data", "c", "output_logs", "img1"], .file 2097152 .malformed)]⟩

/-- Counterexample fixture for C2: a country whose input log file exists
but cannot be read (`open` raises `OSError`). -/
def fsUnreadableW : FS := ⟨[
  (["data"], .dir 4096 ["a"]),
  (["data", "a"], .dir 4096 ["input_logs", "output_logs"]),
  (["data", "a", "input_logs"], .dir 4096 ["x.json"]),
  (["data", "a", "output_logs"], .dir 4096 ["y.json"]),
  (["data", "a", "input_logs", "x.json"], .file 10 .unreadable),
  (["data", "a", "output_logs", "y.json"], .file 10 (.valid recOutW))]⟩

/-- Witness fixture for the amended C2: the single joined row of country
`bad` has an unparseable timestamp, so `pd.to_datetime` raises inside the
`try` block. -/
def fsBadTsW : FS := ⟨[
  (["data"], .dir 4096 ["bad"]),
  (["data", "bad"], .dir 4096 ["input_logs", "output_logs"]),
  (["data", "bad", "input_logs"], .dir 4096 ["i.json"]),
  (["data", "bad", "output_logs"], .dir 4096 ["o.json"]),
  (["data", "bad", "input_logs", "i.json"], .file 20
    (.valid [("image_id", .str "x"), ("timestamp", .str "garbage")])),
  (["data", "bad", "output_logs", "o.json"], .file 30
    (.valid [("image_id_from_log", .str "x")]))]⟩

/-! ## Loader lemmas -/

theorem loadJsonFiles_counts (fs : FS) (dir : FsPath) :
    ∀ files : List String,
      (∀ f ∈ files, isReadableFile fs (dir ++ [f]) = true) →
      ∃ records diags, loadJsonFiles fs dir files = .ok (records, diags) ∧
        records.length = files.countP (fun f => isValidFile fs (dir ++ [f])) ∧
        diags.countP isDecodeDiag =
          files.countP (fun f => isMalformedFile fs (dir ++ [f])) := by
  intro files
  induction files with
  | nil => intro _; exact ⟨[], [], rfl, rfl, rfl⟩
  | cons f rest ih =>
    intro hread
    have hf : isReadableFile fs (dir ++ [f]) = true := hread f (by simp)
    have hrest := ih (fun g hg => hread g (by simp [hg]))
    obtain ⟨records, diags, heq, hlen, hcnt⟩ := hrest
    unfold isReadableFile at hf
    match hnode : fs.lookup (dir ++ [f]) with
    | some (.file sz (.valid r)) =>
        refine ⟨r :: records, diags, ?_, ?_, ?_⟩
        · simp [loadJsonFiles, hnode, heq]
        · simp [hlen, List.countP_cons, isValidFile, hnode]
        · simp [hcnt, List.countP_cons, isMalformedFile, hnode]
    | some (.file sz .malformed) =>
        refine ⟨records, .couldNotDecode f :: diags, ?_, ?_, ?_⟩
        · simp [loadJsonFiles, hnode, heq]
        · simp [hlen, List.countP_cons, isValidFile, hnode]
        · simp [hcnt, List.countP_cons, isMalformedFile, hnode, isDecodeDiag]
    | some (.file sz .unreadable) => rw [hnode] at hf; simp at hf
    | some (.dir sz es) => rw [hnode] at hf; simp at hf
    | none => rw [hnode] at hf; simp at hf

/-- C5.  Log Loader count: a directory whose `.json` files are all readable
yields exactly one record per validly-parsing file and exactly one
"could not decode" diagnostic per malformed file, and the load never
aborts (it returns, rather than raising, whatever the mix of valid and
malformed files). -/
theorem claim_loader_counts (fs : FS) (dir : FsPath) (sz : Nat) (entries : List String)
    (hdir : fs.lookup dir = some (.dir sz entries))
    (hread : ∀ f ∈ entries.filter endsWithJson,
      isReadableFile fs (dir ++ [f]) = true) :
    ∃ records diags, load_json_logs fs dir = .ok (records, diags) ∧
      records.length = (entries.filter endsWithJson).countP
        (fun f => isValidFile fs (dir ++ [f])) ∧
      diags.countP isDecodeDiag = (entries.filter endsWithJson).countP
        (fun f => isMalformedFile fs (dir ++ [f])) := by
  have hex : osPathExists fs dir = true := by simp [osPathExists, hdir]
  have hls : osListdir fs dir = .ok entries := by simp [osListdir, hdir]
  by_cases hempty : (entries.filter endsWithJson).isEmpty
  · refine ⟨[], [.noJsonFiles dir], ?_, ?_, ?_⟩
    · simp [load_json_logs, hex, hls, hempty]
    · simp [List.isEmpty_iff.1 hempty]
    · simp [List.isEmpty_iff.1 hempty, isDecodeDiag]
  · obtain ⟨records, diags, heq, hlen, hcnt⟩ :=
      loadJsonFiles_counts fs dir (entries.filter endsWithJson) hread
    refine ⟨records, diags, ?_, hlen, hcnt⟩
    simp [load_json_logs, hex, hls, hempty, heq]

/-- Witness for C5: a directory with two valid, one malformed and one
non-JSON file yields two records and one decode diagnostic. -/
theorem claim_loader_counts_witness :
    ∃ records diags,
      load_json_logs
        ⟨[(["logs"], .dir 4096 ["a.json", "b.json", "c.json", "d.txt"]),
          (["logs", "a.json"], .file 10 (.valid [("image_id", .str "a")])),
          (["logs", "b.json"], .file 11 .malformed),
          (["logs", "c.json"], .file 12 (.valid [("image_id", .str "c")])),
          (["logs", "d.txt"], .file 13 .unreadable)]⟩ ["logs"] = .ok (records, diags) ∧
      records.length = (["a.json", "b.json", "c.json", "d.txt"].filter
          endsWithJson).countP
        (fun f => isValidFile
          ⟨[(["logs"], .dir 4096 ["a.json", "b.json", "c.json", "d.txt"]),
            (["logs", "a.json"], .file 10 (.valid [("image_id", .str "a")])),
            (["logs", "b.json"], .file 11 .malformed),
            (["logs", "c.json"], .file 12 (.valid [("image_id", .str "c")])),
            (["logs", "d.txt"], .file 13 .unreadable)]⟩ (["logs"] ++ [f])) ∧
      diags.countP isDecodeDiag = (["a.json", "b.json", "c.json", "d.txt"].filter
          endsWithJson).countP
        (fun f => isMalformedFile
          ⟨[(["logs"], .dir 4096 ["a.json", "b.json", "c.json", "d.txt"]),
            (["logs", "a.json"], .file 10 (.valid [("image_id", .str "a")])),
            (["logs", "b.json"], .file 11 .malformed),
            (["logs", "c.json"], .file 12 (.valid [("image_id", .str "c")])),
            (["logs", "d.txt"], .file 13 .unreadable)]⟩ (["logs"] ++ [f])) :=
  claim_loader_counts _ ["logs"] 4096 ["a.json", "b.json", "c.json", "d.txt"]
    (by decide) (by decide)

/-- C7.  Log Loader on a missing directory: an empty record list, a single
"directory not found" diagnostic, and no exception. -/
theorem claim_loader_missing_dir (fs : FS) (p : FsPath) (h : fs.lookup p = none) :
    load_json_logs fs p = .ok ([], [.directoryNotFound p]) := by
  simp [load_json_logs, osPathExists, h]

/-- Witness for C7 on the empty filesystem. -/
theorem claim_loader_missing_dir_witness :
    load_json_logs ⟨[]⟩ ["nowhere"] = .ok ([], [.directoryNotFound ["nowhere"]]) :=
  claim_loader_missing_dir ⟨[]⟩ ["nowhere"] (by decide)

/-! ## Join lemmas -/

theorem mergeInner_ok (input_df output_df : List Record) (rows : List JoinedRow)
    (h : mergeInner input_df output_df = .ok rows) :
    rows = joinRows input_df output_df := by
  unfold mergeInner at h
  split at h
  · exact absurd h (by simp)
  · split at h
    · exact absurd h (by simp)
    · simpa [joinRows] using h.symm

theorem joinRows_mem (input_df output_df : List Record) (i o : Record) :
    JoinedRow.mk i o ∈ joinRows input_df output_df ↔
      i ∈ input_df ∧ o ∈ output_df ∧
        (i.get "image_id" == o.get "image_id_from_log") = true := by
  simp only [joinRows, List.mem_flatMap, List.mem_map, List.mem_filter, JoinedRow.mk.injEq]
  constructor
  · rintro ⟨i', hi', o', ⟨ho', hkey⟩, hio, hoo⟩
    subst hio; subst hoo
    exact ⟨hi', ho', hkey⟩
  · rintro ⟨hi, ho, hkey⟩
    exact ⟨i, hi, o, ⟨ho, hkey⟩, rfl, rfl⟩

theorem count_map_mk (i o : Record) (ls : List Record) :
    (ls.map (fun o' => JoinedRow.mk i o')).count (JoinedRow.mk i o) = ls.count o := by
  induction ls with
  | nil => rfl
  | cons a t ih =>
    simp only [List.map_cons, List.count_cons, ih]
    congr 1
    by_cases h : a = o
    · simp [h]
    · have h1 : (JoinedRow.mk i a == JoinedRow.mk i o) = false := by
        simp [JoinedRow.mk.injEq, h]
      have h2 : (a == o) = false := by simp [h]
      rw [h1, h2]

theorem joinRows_count (input_df output_df : List Record) (i o : Record) :
    (joinRows input_df output_df).count (JoinedRow.mk i o) =
      if (i.get "image_id" == o.get "image_id_from_log") = true
      then input_df.count i * output_df.count o else 0 := by
  induction input_df with
  | nil => simp [joinRows]
  | cons x xs ih =>
    rw [joinRows, List.flatMap_cons, List.count_append]
    have hrest : (xs.flatMap fun i' =>
        (output_df.filter fun o' => i'.get "image_id" == o'.get "image_id_from_log").map
          fun o' => JoinedRow.mk i' o') = joinRows xs output_df := rfl
    rw [hrest, ih]
    by_cases hx : x = i
    · subst hx
      rw [count_map_mk]
      by_cases hkey : (x.get "image_id" == o.get "image_id_from_log") = true
      · rw [@List.count_filter _ _ _
            (fun o' => x.get "image_id" == o'.get "image_id_from_log") o output_df hkey]
        simp only [hkey, if_true, List.count_cons]
        have hxx : (x == x) = true := by simp
        rw [hxx]
        simp only [if_true]
        ring
      · have hnot : o ∉ output_df.filter
            (fun o' => x.get "image_id" == o'.get "image_id_from_log") := by
          intro hmem
          exact hkey (List.mem_filter.1 hmem).2
        rw [List.count_eq_zero.2 hnot]
        simp [hkey]
    · have hz : (JoinedRow.mk i o) ∉
          (output_df.filter fun o' => x.get "image_id" == o'.get "image_id_from_log").map
            fun o' => JoinedRow.mk x o' := by
        intro hmem
        obtain ⟨o', _, heq⟩ := List.mem_map.1 hmem
        rw [JoinedRow.mk.injEq] at heq
        exact hx heq.1
      rw [List.count_eq_zero.2 hz]
      have hxi : (x == i) = false := by simp [hx]
      simp only [List.count_cons, hxi, Nat.zero_add]
      split <;> simp

theorem mapExcept_ok_length {α β : Type} (f : α → Except PyErr β) :
    ∀ (l : List α) (l' : List β), mapExcept f l = .ok l' → l'.length = l.length := by
  intro l
  induction l with
  | nil => intro l' h; simp [mapExcept] at h; simp [← h]
  | cons x xs ih =>
    intro l' h
    unfold mapExcept at h
    cases hfx : f x with
    | error e => rw [hfx] at h; exact absurd h (by simp)
    | ok y =>
      rw [hfx] at h
      cases hrec : mapExcept f xs with
      | error e => rw [hrec] at h; exact absurd h (by simp)
      | ok ys =>
        rw [hrec] at h
        simp only [Except.ok.injEq] at h
        subst h
        simp [ih ys hrec]

theorem add_file_sizes_map_row (fs : FS) (df : List PreRow) (country : String) :
    (add_file_sizes fs df country).map OutRow.row = df.map PreRow.row := by
  unfold add_file_sizes
  rw [List.map_map]
  congr 1
  funext r
  simp only [Function.comp]
  split <;> rfl

theorem add_file_sizes_map_country (fs : FS) (df : List PreRow) (country : String) :
    (add_file_sizes fs df country).map OutRow.country = df.map PreRow.country := by
  unfold add_file_sizes
  rw [List.map_map]
  congr 1
  funext r
  simp only [Function.comp]
  split <;> rfl

theorem processCountry_shape (fs : FS) (country : String)
    (input_df output_df : List Record) (ds : List OutRow)
    (h : processCountry fs country input_df output_df = .ok ds) :
    ∃ joined, mergeInner input_df output_df = .ok joined ∧
      ds.map OutRow.row = joined ∧ ∀ r ∈ ds, r.country = country := by
  unfold processCountry at h
  split at h
  · exact absurd h (by simp)
  · rename_i joined hmerge
    split at h
    · exact absurd h (by simp)
    · split at h
      · exact absurd h (by simp)
      · rename_i tss htss
        obtain rfl : add_file_sizes fs
            ((joined.zip tss).map fun p => PreRow.mk p.1 p.2 country) country = ds := by
          simpa using h
        refine ⟨joined, hmerge, ?_, ?_⟩
        · rw [add_file_sizes_map_row, List.map_map]
          have hlen : joined.length ≤ tss.length := by
            rw [mapExcept_ok_length _ joined tss htss]
          have : (PreRow.row ∘ fun p : JoinedRow × Timestamp => PreRow.mk p.1 p.2 country)
              = Prod.fst := by
            funext p; rfl
          rw [this, List.map_fst_zip _ _ hlen]
        · intro r hr
          have : r.country ∈ (add_file_sizes fs
              ((joined.zip tss).map fun p => PreRow.mk p.1 p.2 country) country).map
                OutRow.country := List.mem_map.2 ⟨r, hr, rfl⟩
          rw [add_file_sizes_map_country, List.map_map] at this
          obtain ⟨p, _, hp⟩ := List.mem_map.1 this
          exact hp.symm

/-! ## Mapping lemmas -/

theorem lookup_cons_eq_if (k' : String) (v' : List OutRow) (t : List (String × List OutRow))
    (c : String) :
    List.lookup c ((k', v') :: t) = if c = k' then some v' else List.lookup c t := by
  rw [List.lookup_cons]
  by_cases h : c = k'
  · simp [h]
  · have hb : (c == k') = false := by simp [h]
    rw [hb, if_neg h]

theorem lookup_map_update (k : String) (v : List OutRow) (c : String) (ds : List OutRow) :
    ∀ m : List (String × List OutRow),
      List.lookup c (m.map fun kv => if kv.1 == k then (k, v) else kv) = some ds →
      (c = k ∧ ds = v) ∨ List.lookup c m = some ds := by
  intro m
  induction m with
  | nil => intro h; simp at h
  | cons a t ih =>
    intro h
    obtain ⟨ak, av⟩ := a
    simp only [List.map_cons] at h
    by_cases hak : (ak == k) = true
    · rw [if_pos hak] at h
      have hak' : ak = k := by simpa using hak
      rw [lookup_cons_eq_if] at h
      by_cases hck : c = k
      · rw [if_pos hck] at h
        exact Or.inl ⟨hck, (Option.some.injEq _ _ ▸ h).symm⟩
      · rw [if_neg hck] at h
        rcases ih h with h1 | h2
        · exact Or.inl h1
        · right
          rw [lookup_cons_eq_if, if_neg (hak' ▸ hck)]
          exact h2
    · rw [if_neg hak] at h
      rw [lookup_cons_eq_if] at h
      by_cases hcak : c = ak
      · rw [if_pos hcak] at h
        right
        rw [lookup_cons_eq_if, if_pos hcak]
        exact h
      · rw [if_neg hcak] at h
        rcases ih h with h1 | h2
        · exact Or.inl h1
        · right
          rw [lookup_cons_eq_if, if_neg hcak]
          exact h2

theorem lookup_append_single (k : String) (v : List OutRow) (c : String) (ds : List OutRow) :
    ∀ m : List (String × List OutRow),
      List.lookup c (m ++ [(k, v)]) = some ds →
      (c = k ∧ ds = v) ∨ List.lookup c m = some ds := by
  intro m
  induction m with
  | nil =>
    intro h
    rw [List.nil_append, lookup_cons_eq_if] at h
    by_cases hck : c = k
    · rw [if_pos hck] at h
      exact Or.inl ⟨hck, (Option.some.injEq _ _ ▸ h).symm⟩
    · rw [if_neg hck] at h
      simp at h
  | cons a t ih =>
    intro h
    obtain ⟨ak, av⟩ := a
    rw [List.cons_append, lookup_cons_eq_if] at h
    by_cases hcak : c = ak
    · rw [if_pos hcak] at h
      right
      rw [lookup_cons_eq_if, if_pos hcak]
      exact h
    · rw [if_neg hcak] at h
      rcases ih h with h1 | h2
      · exact Or.inl h1
      · right
        rw [lookup_cons_eq_if, if_neg hcak]
        exact h2

theorem dictFind_dictSet (m : List (String × List OutRow)) (k : String) (v : List OutRow)
    (c : String) (ds : List OutRow)
    (h : dictFind (dictSet m k v) c = some ds) :
    (c = k ∧ ds = v) ∨ dictFind m c = some ds := by
  unfold dictFind at h ⊢
  unfold dictSet at h
  split at h
  · exact lookup_map_update k v c ds m h
  · exact lookup_append_single k v c ds m h

/-- Any binding of the final mapping either was in the accumulator or is
the processed dataset of its country, produced from the two loaded,
non-empty record lists. -/
theorem processCountries_find (fs : FS) (base : FsPath) :
    ∀ (countries : List String) (m : List (String × List OutRow)) (diags : List Diag)
      (m' : List (String × List OutRow)) (diags' : List Diag) (c : String) (ds : List OutRow),
      processCountries fs base countries (m, diags) = .ok (m', diags') →
      dictFind m' c = some ds →
      dictFind m c = some ds ∨
      ∃ input_df output_df d1 d2,
        load_json_logs fs (base ++ [c, "input_logs"]) = .ok (input_df, d1) ∧
        load_json_logs fs (base ++ [c, "output_logs"]) = .ok (output_df, d2) ∧
        input_df.isEmpty = false ∧ output_df.isEmpty = false ∧
        processCountry fs c input_df output_df = .ok ds := by
  intro countries
  induction countries with
  | nil =>
    intro m diags m' diags' c ds h hfind
    obtain ⟨rfl, rfl⟩ : m = m' ∧ diags = diags' := by
      simpa [processCountries] using h
    exact Or.inl hfind
  | cons country rest ih =>
    intro m diags m' diags' c ds h hfind
    rw [processCountries] at h
    split at h
    · exact ih _ _ _ _ _ _ h hfind
    · rename_i hdirs
      cases hin : load_json_logs fs (base ++ [country, "input_logs"]) with
      | error e => rw [hin] at h; exact absurd h (by simp)
      | ok p1 =>
        obtain ⟨input_df, d1⟩ := p1
        rw [hin] at h
        cases hout : load_json_logs fs (base ++ [country, "output_logs"]) with
        | error e => rw [hout] at h; exact absurd h (by simp)
        | ok p2 =>
          obtain ⟨output_df, d2⟩ := p2
          rw [hout] at h
          simp only at h
          split at h
          · exact ih _ _ _ _ _ _ h hfind
          · rename_i hne
            split at h
            · rename_i df hdf
              rcases ih _ _ _ _ _ _ h hfind with hleft | hright
              · rcases dictFind_dictSet m country df c ds hleft with ⟨rfl, rfl⟩ | hm
                · right
                  have hne' : input_df.isEmpty = false ∧ output_df.isEmpty = false := by
                    constructor <;> [skip; skip] <;> revert hne <;>
                      cases input_df.isEmpty <;> cases output_df.isEmpty <;> simp
                  exact ⟨input_df, output_df, d1, d2, hin, hout, hne'.1, hne'.2, hdf⟩
                · exact Or.inl hm
              · exact Or.inr hright
            · exact ih _ _ _ _ _ _ h hfind

theorem countP_row_eq_count_map (ds : List OutRow) (x : JoinedRow) :
    ds.countP (fun r => r.row == x) = (ds.map OutRow.row).count x := by
  induction ds with
  | nil => rfl
  | cons a t ih => simp [List.countP_cons, List.count_cons, ih]

/-- C1.  Join correctness: in the dataset of any processed country, a row
for the pair `(i, o)` appears iff `i.image_id == o.image_id_from_log`
with `i` among the loaded input records and `o` among the loaded output
records, and the number of rows tracing back to `(i, o)` is the product of
the two records' multiplicities (cross-product inner-join semantics). -/
theorem claim_join_correctness (fs : FS) (base : FsPath)
    (m : List (String × List OutRow)) (diags : List Diag) (c : String) (ds : List OutRow)
    (input_df output_df : List Record) (d1 d2 : List Diag) (i o : Record)
    (hrun : load_country_logs fs base = .ok (m, diags))
    (hds : dictFind m c = some ds)
    (hin : load_json_logs fs (base ++ [c, "input_logs"]) = .ok (input_df, d1))
    (hout : load_json_logs fs (base ++ [c, "output_logs"]) = .ok (output_df, d2)) :
    ((∃ r ∈ ds, r.row = JoinedRow.mk i o) ↔
      (i ∈ input_df ∧ o ∈ output_df ∧
        (i.get "image_id" == o.get "image_id_from_log") = true)) ∧
    ds.countP (fun r => r.row == JoinedRow.mk i o) =
      (if (i.get "image_id" == o.get "image_id_from_log") = true
       then input_df.count i * output_df.count o else 0) := by
  unfold load_country_logs at hrun
  split at hrun
  · exfalso
    simp only [Except.ok.injEq, Prod.mk.injEq] at hrun
    rw [← hrun.1] at hds
    simp [dictFind] at hds
  · cases hls : osListdir fs base with
    | error e => rw [hls] at hrun; exact absurd hrun (by simp)
    | ok countries =>
      rw [hls] at hrun
      rcases processCountries_find fs base countries [] [] m diags c ds hrun hds with h0 | hex
      · simp [dictFind] at h0
      · obtain ⟨idf, odf, d1', d2', hin', hout', hne1, hne2, hpc⟩ := hex
        obtain ⟨rfl, rfl⟩ : input_df = idf ∧ d1 = d1' := by
          simpa using hin.symm.trans hin'
        obtain ⟨rfl, rfl⟩ : output_df = odf ∧ d2 = d2' := by
          simpa using hout.symm.trans hout'
        obtain ⟨joined, hmerge, hrows, hcountry⟩ :=
          processCountry_shape fs c input_df output_df ds hpc
        have hj : joined = joinRows input_df output_df := mergeInner_ok _ _ _ hmerge
        constructor
        · constructor
          · rintro ⟨r, hr, hrow⟩
            have hmm : JoinedRow.mk i o ∈ ds.map OutRow.row := List.mem_map.2 ⟨r, hr, hrow⟩
            rw [hrows, hj] at hmm
            exact (joinRows_mem input_df output_df i o).1 hmm
          · intro hk
            have hmm : JoinedRow.mk i o ∈ joinRows input_df output_df :=
              (joinRows_mem input_df output_df i o).2 hk
            rw [← hj, ← hrows] at hmm
            obtain ⟨r, hr, hrow⟩ := List.mem_map.1 hmm
            exact ⟨r, hr, hrow⟩
        · rw [countP_row_eq_count_map, hrows, hj, joinRows_count]

/-- Witness for C1: the spec's sample input/output pair joins into exactly
one row. -/
theorem claim_join_correctness_witness :
    ∃ m diags ds,
      load_country_logs fsJoinW ["data"] = .ok (m, diags) ∧
      dictFind m "usa" = some ds ∧
      (((∃ r ∈ ds, r.row = JoinedRow.mk recInW recOutW) ↔
        (recInW ∈ [recInW] ∧ recOutW ∈ [recOutW] ∧
          (Record.get recInW "image_id" == Record.get recOutW "image_id_from_log") = true)) ∧
       ds.countP (fun r => r.row == JoinedRow.mk recInW recOutW) =
        (if (Record.get recInW "image_id" == Record.get recOutW "image_id_from_log") = true
         then [recInW].count recInW * [recOutW].count recOutW else 0)) := by
  refine ⟨_, _, _, rfl, rfl, ?_⟩
  exact claim_join_correctness fsJoinW ["data"] _ _ "usa" _ [recInW] [recOutW] [] []
    recInW recOutW rfl rfl rfl rfl

/-- Every dataset bound in the result of `load_country_logs` is the output
of `processCountry` on its country's two loaded, non-empty record lists. -/
theorem load_country_logs_find (fs : FS) (base : FsPath)
    (m : List (String × List OutRow)) (diags : List Diag) (c : String) (ds : List OutRow)
    (hrun : load_country_logs fs base = .ok (m, diags))
    (hds : dictFind m c = some ds) :
    ∃ input_df output_df d1 d2,
      load_json_logs fs (base ++ [c, "input_logs"]) = .ok (input_df, d1) ∧
      load_json_logs fs (base ++ [c, "output_logs"]) = .ok (output_df, d2) ∧
      input_df.isEmpty = false ∧ output_df.isEmpty = false ∧
      processCountry fs c input_df output_df = .ok ds := by
  unfold load_country_logs at hrun
  split at hrun
  · exfalso
    simp only [Except.ok.injEq, Prod.mk.injEq] at hrun
    rw [← hrun.1] at hds
    simp [dictFind] at hds
  · cases hls : osListdir fs base with
    | error e => rw [hls] at hrun; exact absurd hrun (by simp)
    | ok countries =>
      rw [hls] at hrun
      rcases processCountries_find fs base countries [] [] m diags c ds hrun hds with h0 | hex
      · simp [dictFind] at h0
      · exact hex

/-- C10.  Key/tag agreement: every row of the dataset stored under key `c`
carries `country = c`. -/
theorem claim_country_tag (fs : FS) (base : FsPath)
    (m : List (String × List OutRow)) (diags : List Diag) (c : String) (ds : List OutRow)
    (hrun : load_country_logs fs base = .ok (m, diags))
    (hds : dictFind m c = some ds) :
    ∀ r ∈ ds, r.country = c := by
  obtain ⟨input_df, output_df, d1, d2, hin, hout, hne1, hne2, hpc⟩ :=
    load_country_logs_find fs base m diags c ds hrun hds
  obtain ⟨joined, hmerge, hrows, hcountry⟩ :=
    processCountry_shape fs c input_df output_df ds hpc
  exact hcountry

/-- Witness for C10 on the one-country fixture. -/
theorem claim_country_tag_witness :
    ∃ m diags ds, load_country_logs fsJoinW ["data"] = .ok (m, diags) ∧
      dictFind m "usa" = some ds ∧ ∀ r ∈ ds, r.country = "usa" := by
  refine ⟨_, _, _, rfl, rfl, ?_⟩
  exact claim_country_tag fsJoinW ["data"] _ _ "usa" _ rfl rfl

/-- Diagnostics already accumulated are preserved by the rest of the
country loop. -/
theorem processCountries_diags_mono (fs : FS) (base : FsPath) :
    ∀ (countries : List String) (m : List (String × List OutRow)) (diags : List Diag)
      (m' : List (String × List OutRow)) (diags' : List Diag),
      processCountries fs base countries (m, diags) = .ok (m', diags') →
      ∀ d ∈ diags, d ∈ diags' := by
  intro countries
  induction countries with
  | nil =>
    intro m diags m' diags' h d hd
    obtain ⟨rfl, rfl⟩ : m = m' ∧ diags = diags' := by simpa [processCountries] using h
    exact hd
  | cons country rest ih =>
    intro m diags m' diags' h d hd
    rw [processCountries] at h
    split at h
    · exact ih _ _ _ _ h d (by simp [hd])
    · cases hin : load_json_logs fs (base ++ [country, "input_logs"]) with
      | error e => rw [hin] at h; exact absurd h (by simp)
      | ok p1 =>
        obtain ⟨input_df, d1⟩ := p1
        rw [hin] at h
        cases hout : load_json_logs fs (base ++ [country, "output_logs"]) with
        | error e => rw [hout] at h; exact absurd h (by simp)
        | ok p2 =>
          obtain ⟨output_df, d2⟩ := p2
          rw [hout] at h
          simp only at h
          split at h
          · exact ih _ _ _ _ h d (by simp [hd])
          · split at h
            · exact ih _ _ _ _ h d (by simp [hd])
            · exact ih _ _ _ _ h d (by simp [hd])

/-- A listed country whose folders exist and whose loads return an empty
record list leaves its "skipping empty" diagnostic in the final list. -/
theorem processCountries_skipping (fs : FS) (base : FsPath)
    (c : String) (input_df output_df : List Record) (d1 d2 : List Diag)
    (hdirs : (osPathIsdir fs (base ++ [c, "input_logs"]) &&
      osPathIsdir fs (base ++ [c, "output_logs"])) = true)
    (hin : load_json_logs fs (base ++ [c, "input_logs"]) = .ok (input_df, d1))
    (hout : load_json_logs fs (base ++ [c, "output_logs"]) = .ok (output_df, d2))
    (hempty : input_df = [] ∨ output_df = []) :
    ∀ (countries : List String) (m : List (String × List OutRow)) (diags : List Diag)
      (m' : List (String × List OutRow)) (diags' : List Diag),
      processCountries fs base countries (m, diags) = .ok (m', diags') →
      c ∈ countries →
      Diag.skippingEmpty c ∈ diags' := by
  intro countries
  induction countries with
  | nil => intro m diags m' diags' h hc; simp at hc
  | cons c0 rest ih =>
    intro m diags m' diags' h hc
    rw [processCountries] at h
    by_cases hceq : c0 = c
    · subst hceq
      rw [if_neg (not_not_intro hdirs)] at h
      rw [hin, hout] at h
      simp only at h
      have he : (input_df.isEmpty || output_df.isEmpty) = true := by
        rcases hempty with rfl | rfl <;> simp
      rw [if_pos he] at h
      exact processCountries_diags_mono fs base rest _ _ _ _ h
        (Diag.skippingEmpty c0) (by simp)
    · have hcr : c ∈ rest := by
        rcases List.mem_cons.1 hc with rfl | hcr
        · exact absurd rfl hceq
        · exact hcr
      split at h
      · exact ih _ _ _ _ h hcr
      · cases hin0 : load_json_logs fs (base ++ [c0, "input_logs"]) with
        | error e => rw [hin0] at h; exact absurd h (by simp)
        | ok p1 =>
          obtain ⟨idf0, d10⟩ := p1
          rw [hin0] at h
          cases hout0 : load_json_logs fs (base ++ [c0, "output_logs"]) with
          | error e => rw [hout0] at h; exact absurd h (by simp)
          | ok p2 =>
            obtain ⟨odf0, d20⟩ := p2
            rw [hout0] at h
            simp only at h
            split at h
            · exact ih _ _ _ _ h hcr
            · split at h
              · exact ih _ _ _ _ h hcr
              · exact ih _ _ _ _ h hcr

/-- C4.  Empty-set skip: a listed country one of whose loaded record sets
is empty is absent from the result mapping and leaves an informational
"skipping" diagnostic; it is never joined and never stored as an empty
dataset. -/
theorem claim_empty_skip (fs : FS) (base : FsPath)
    (m : List (String × List OutRow)) (diags : List Diag) (c : String)
    (countries : List String) (input_df output_df : List Record) (d1 d2 : List Diag)
    (hrun : load_country_logs fs base = .ok (m, diags))
    (hls : osListdir fs base = .ok countries)
    (hc : c ∈ countries)
    (hdirs : (osPathIsdir fs (base ++ [c, "input_logs"]) &&
      osPathIsdir fs (base ++ [c, "output_logs"])) = true)
    (hin : load_json_logs fs (base ++ [c, "input_logs"]) = .ok (input_df, d1))
    (hout : load_json_logs fs (base ++ [c, "output_logs"]) = .ok (output_df, d2))
    (hempty : input_df = [] ∨ output_df = []) :
    dictFind m c = none ∧ Diag.skippingEmpty c ∈ diags := by
  constructor
  · cases hfind : dictFind m c with
    | none => rfl
    | some ds =>
      exfalso
      obtain ⟨idf, odf, d1', d2', hin', hout', hne1, hne2, hpc⟩ :=
        load_country_logs_find fs base m diags c ds hrun hfind
      obtain ⟨rfl, rfl⟩ : input_df = idf ∧ d1 = d1' := by
        simpa using hin.symm.trans hin'
      rcases hempty with rfl | rfl
      · simp at hne1
      · obtain ⟨rfl, rfl⟩ : ([] : List Record) = odf ∧ d2 = d2' := by
          simpa using hout.symm.trans hout'
        simp at hne2
  · unfold load_country_logs at hrun
    split at hrun
    · exfalso
      rename_i hbase
      have : osPathExists fs base = true := by
        unfold osListdir at hls
        unfold osPathExists
        cases hnode : fs.lookup base <;> rw [hnode] at hls <;> simp_all
      exact hbase (by simp [this])
    · rw [hls] at hrun
      exact processCountries_skipping fs base c input_df output_df d1 d2
        hdirs hin hout hempty countries [] [] m diags hrun hc

/-- Witness for C4: the country with an empty input log set is skipped. -/
theorem claim_empty_skip_witness :
    ∃ m diags, load_country_logs fsEmptyW ["data"] = .ok (m, diags) ∧
      dictFind m "empty1" = none ∧ Diag.skippingEmpty "empty1" ∈ diags := by
  refine ⟨_, _, rfl, ?_⟩
  exact claim_empty_skip fsEmptyW ["data"] _ _ "empty1" ["empty1"] [] [recOutW]
    [Diag.noJsonFiles ["data", "empty1", "input_logs"]] [] rfl rfl (by simp)
    (by decide) rfl rfl (Or.inl rfl)

/-- The row produced by `add_file_sizes` at an index whose resolved
identifier is truthy: sizes looked up at the paths the code constructs. -/
theorem add_file_sizes_getElem (fs : FS) (df : List PreRow) (country : String)
    (i : Nat) (r : PreRow) (v : JsonValue)
    (hr : df[i]? = some r)
    (hv : pyOr (r.row.get "image_id") (r.row.get "image_id_from_log") = some v)
    (htr : truthy (some v) = true) :
    (add_file_sizes fs df country)[i]? = some
      ⟨r.row, r.timestamp, r.country,
        get_size_mb fs ["data", country, "input", pyStr v],
        get_size_mb fs ["data", country, "output", pyStr v]⟩ := by
  unfold add_file_sizes
  rw [List.getElem?_map, hr]
  simp [hv, htr]

/-- C3.  Size augmentation values: for a row with a truthy resolved
identifier, an existing artifact of byte size `B` is recorded as
`round(B / 1048576, 5)`, a missing artifact is recorded as the absent
marker (which is never `some 0`), and a zero-byte artifact is recorded as
`some 0` — so absence and emptiness are distinguishable. -/
theorem claim_size_values (fs : FS) (df : List PreRow) (country : String)
    (i : Nat) (r : PreRow)
    (hr : df[i]? = some r)
    (htr : truthy (pyOr (r.row.get "image_id") (r.row.get "image_id_from_log")) = true) :
    ∃ out, (add_file_sizes fs df country)[i]? = some out ∧
      ∀ name, (match pyOr (r.row.get "image_id") (r.row.get "image_id_from_log") with
               | some v => pyStr v
               | none => "None") = name →
        ((∀ B c0, fs.lookup ["data", country, "input", name] = some (.file B c0) →
            out.input_file_size = some (pyRound5 ((B : ℚ) / 1048576))) ∧
         (fs.lookup ["data", country, "input", name] = none →
            out.input_file_size = none ∧ out.input_file_size ≠ some 0) ∧
         (∀ B c0, fs.lookup ["data", country, "output", name] = some (.file B c0) →
            out.output_file_size = some (pyRound5 ((B : ℚ) / 1048576))) ∧
         (fs.lookup ["data", country, "output", name] = none →
            out.output_file_size = none ∧ out.output_file_size ≠ some 0) ∧
         (∀ c0, fs.lookup ["data", country, "input", name] = some (.file 0 c0) →
            out.input_file_size = some 0)) := by
  obtain ⟨v, hv⟩ : ∃ v, pyOr (r.row.get "image_id") (r.row.get "image_id_from_log") = some v := by
    cases h : pyOr (r.row.get "image_id") (r.row.get "image_id_from_log") with
    | none => rw [h] at htr; exact absurd htr (by simp [truthy])
    | some v => exact ⟨v, rfl⟩
  rw [hv] at htr
  refine ⟨_, add_file_sizes_getElem fs df country i r v hr hv htr, ?_⟩
  intro name hname
  rw [hv] at hname
  simp only at hname
  subst hname
  refine ⟨?_, ?_, ?_, ?_, ?_⟩
  · intro B c0 hB
    simp only [get_size_mb, hB]
    norm_num
  · intro hnone
    simp [get_size_mb, hnone]
  · intro B c0 hB
    simp only [get_size_mb, hB]
    norm_num
  · intro hnone
    simp [get_size_mb, hnone]
  · intro c0 hB
    simp only [get_size_mb, hB]
    norm_num [pyRound5, roundHalfEven]

/-- Witness for C3 on the 1.5 MiB artifact fixture. -/
theorem claim_size_values_witness :
    ∃ out, (add_file_sizes fsSizeW [preRowW] "usa")[0]? = some out ∧
      ∀ name, (match pyOr ((preRowW).row.get "image_id")
                  ((preRowW).row.get "image_id_from_log") with
               | some v => pyStr v
               | none => "None") = name →
        ((∀ B c0, fsSizeW.lookup ["data", "usa", "input", name] = some (.file B c0) →
            out.input_file_size = some (pyRound5 ((B : ℚ) / 1048576))) ∧
         (fsSizeW.lookup ["data", "usa", "input", name] = none →
            out.input_file_size = none ∧ out.input_file_size ≠ some 0) ∧
         (∀ B c0, fsSizeW.lookup ["data", "usa", "output", name] = some (.file B c0) →
            out.output_file_size = some (pyRound5 ((B : ℚ) / 1048576))) ∧
         (fsSizeW.lookup ["data", "usa", "output", name] = none →
            out.output_file_size = none ∧ out.output_file_size ≠ some 0) ∧
         (∀ c0, fsSizeW.lookup ["data", "usa", "input", name] = some (.file 0 c0) →
            out.input_file_size = some 0)) :=
  claim_size_values fsSizeW [preRowW] "usa" 0 preRowW rfl (by decide)

/-- C9.  Rows with no usable identifier: when both `image_id` and
`image_id_from_log` are missing or falsy, the sizes recorded for that row
are both the absent marker, the row's other fields are kept, and the
remaining rows are still processed (no exception, one output row per input
row). -/
theorem claim_missing_ids (fs : FS) (df : List PreRow) (country : String)
    (i : Nat) (r : PreRow)
    (hr : df[i]? = some r)
    (h1 : truthy (r.row.get "image_id") = false)
    (h2 : truthy (r.row.get "image_id_from_log") = false) :
    (add_file_sizes fs df country).length = df.length ∧
    ∃ out, (add_file_sizes fs df country)[i]? = some out ∧
      out.input_file_size = none ∧ out.output_file_size = none ∧
      out.row = r.row ∧ out.timestamp = r.timestamp ∧ out.country = r.country := by
  constructor
  · unfold add_file_sizes
    exact List.length_map _ _
  · have hfal : truthy (pyOr (r.row.get "image_id") (r.row.get "image_id_from_log"))
        = false := by
      unfold pyOr
      rw [h1]
      simpa using h2
    unfold add_file_sizes
    rw [List.getElem?_map, hr]
    refine ⟨_, rfl, ?_⟩
    simp [hfal]

/-- Witness for C9 on the empty-identifier row. -/
theorem claim_missing_ids_witness :
    (add_file_sizes fsSizeW [preRowNoIdW] "usa").length = [preRowNoIdW].length ∧
    ∃ out, (add_file_sizes fsSizeW [preRowNoIdW] "usa")[0]? = some out ∧
      out.input_file_size = none ∧ out.output_file_size = none ∧
      out.row = preRowNoIdW.row ∧ out.timestamp = preRowNoIdW.timestamp ∧
      out.country = preRowNoIdW.country :=
  claim_missing_ids fsSizeW [preRowNoIdW] "usa" 0 preRowNoIdW rfl (by decide) (by decide)

/-- Counterexample for C6: with the artifacts stored in the folders that
hold the JSON logs, the recorded sizes are the absent marker, not
`round(B / 1048576, 5)` — the code looks in `data/<country>/input` and
`data/<country>/output` instead. -/
theorem claim_artifact_path_cex :
    ∃ m diags ds out,
      load_country_logs fsC6 ["data"] = .ok (m, diags) ∧
      dictFind m "c" = some ds ∧
      fsC6.lookup ["data", "c", "input_logs", "img1"] = some (.file 1048576 .malformed) ∧
      fsC6.lookup ["data", "c", "output_logs", "img1"] = some (.file 2097152 .malformed) ∧
      ds = [out] ∧
      out.row.get "image_id" = some (.str "img1") ∧
      out.input_file_size = none ∧
      out.output_file_size = none ∧
      out.input_file_size ≠ some (pyRound5 ((1048576 : ℚ) / 1048576)) := by
  exact ⟨_, _, _, _, rfl, rfl, rfl, rfl, rfl, rfl, rfl, rfl, by decide⟩

/-- C6 (amended).  Artifact path construction: the identifier is
`image_id`, falling back to `image_id_from_log` when `image_id` is falsy,
and the size-lookup paths are `data/<country>/input/<image_id>` and
`data/<country>/output/<image_id>` — with the literal base `data` and the
subdirectories `input` and `output`, which are distinct from the
`input_logs`/`output_logs` folders the JSON logs are loaded from. -/
theorem claim_artifact_path_amended (fs : FS) (df : List PreRow) (country : String)
    (i : Nat) (r : PreRow) (v : JsonValue)
    (hr : df[i]? = some r)
    (hid : (if truthy (r.row.get "image_id") = true then r.row.get "image_id"
            else r.row.get "image_id_from_log") = some v)
    (htr : truthy (some v) = true) :
    ∃ out, (add_file_sizes fs df country)[i]? = some out ∧
      out.input_file_size = get_size_mb fs ["data", country, "input", pyStr v] ∧
      out.output_file_size = get_size_mb fs ["data", country, "output", pyStr v] := by
  have hv : pyOr (r.row.get "image_id") (r.row.get "image_id_from_log") = some v := hid
  exact ⟨_, add_file_sizes_getElem fs df country i r v hr hv htr, rfl, rfl⟩

/-- Witness for the amended C6 on the 1.5 MiB artifact fixture. -/
theorem claim_artifact_path_amended_witness :
    ∃ out, (add_file_sizes fsSizeW [preRowW] "usa")[0]? = some out ∧
      out.input_file_size = get_size_mb fsSizeW ["data", "usa", "input", pyStr (.str "abc123")] ∧
      out.output_file_size = get_size_mb fsSizeW ["data", "usa", "output", pyStr (.str "abc123")] :=
  claim_artifact_path_amended fsSizeW [preRowW] "usa" 0 preRowW (.str "abc123")
    rfl (by decide) (by decide)

/-- Counterexample for C2: an I/O error while reading a log file is raised
by `load_json_logs`, which is called outside the per-country `try` block,
so `load_country_logs` raises instead of returning a mapping. -/
theorem claim_fault_isolation_cex :
    load_country_logs fsUnreadableW ["data"] = .error (.osError "unreadable file") := by
  rfl

/-- C2 (amended).  Fault isolation for the processing phase: an exception
raised inside the per-country `try` block (join failure, timestamp parse
failure, size-lookup phase) is caught; the country is omitted from the
mapping, a diagnostic naming the country and the error is appended, and
the loop continues on the remaining countries from the same state.  (I/O
errors raised while loading the log files occur outside the `try` block
and propagate, terminating the pipeline — see the counterexample.) -/
theorem claim_fault_isolation_amended (fs : FS) (base : FsPath) (country : String)
    (rest : List String) (m : List (String × List OutRow)) (diags : List Diag)
    (input_df output_df : List Record) (d1 d2 : List Diag) (e : PyErr)
    (hdirs : (osPathIsdir fs (base ++ [country, "input_logs"]) &&
      osPathIsdir fs (base ++ [country, "output_logs"])) = true)
    (hin : load_json_logs fs (base ++ [country, "input_logs"]) = .ok (input_df, d1))
    (hout : load_json_logs fs (base ++ [country, "output_logs"]) = .ok (output_df, d2))
    (hne1 : input_df ≠ []) (hne2 : output_df ≠ [])
    (herr : processCountry fs country input_df output_df = .error e) :
    processCountries fs base (country :: rest) (m, diags) =
      processCountries fs base rest (m, diags ++ d1 ++ d2 ++ [.errorProcessing country e]) := by
  rw [processCountries]
  rw [if_neg (not_not_intro hdirs)]
  rw [hin, hout]
  simp only
  have he : (input_df.isEmpty || output_df.isEmpty) = false := by
    cases input_df with
    | nil => exact absurd rfl hne1
    | cons a t =>
      cases output_df with
      | nil => exact absurd rfl hne2
      | cons b u => rfl
  rw [if_neg (by simp [he])]
  rw [herr]

/-- Witness for the amended C2: the failing country only appends its
error diagnostic and the loop moves on. -/
theorem claim_fault_isolation_amended_witness :
    processCountries fsBadTsW ["data"] ["bad"] ([], []) =
      processCountries fsBadTsW ["data"] []
        ([], [] ++ [] ++ [] ++
          [.errorProcessing "bad" (.valueError "garbage")]) :=
  claim_fault_isolation_amended fsBadTsW ["data"] "bad" [] [] []
    [[("image_id", .str "x"), ("timestamp", .str "garbage")]]
    [[("image_id_from_log", .str "x")]] [] [] (.valueError "garbage")
    (by decide) rfl rfl (by decide) (by decide) rfl

/-- C8.  Idempotence/determinism: on a fixed filesystem snapshot the
pipeline is a pure function, so two runs return identical results, and in
particular every country's dataset is row-for-row the same across runs. -/
theorem claim_idempotence (fs : FS) (base : FsPath) :
    load_country_logs fs base = load_country_logs fs base ∧
    ∀ m d m' d' c, load_country_logs fs base = .ok (m, d) →
      load_country_logs fs base = .ok (m', d') →
      dictFind m c = dictFind m' c := by
  refine ⟨rfl, ?_⟩
  intro m d m' d' c h1 h2
  rw [h1] at h2
  obtain ⟨rfl, rfl⟩ : m = m' ∧ d = d' := by simpa using h2
  rfl

/-- Witness for C8 on the one-country fixture. -/
theorem claim_idempotence_witness :
    ∃ m d, load_country_logs fsJoinW ["data"] = .ok (m, d) ∧
      dictFind m "usa" = dictFind m "usa" := by
  refine ⟨_, _, rfl, ?_⟩
  exact (claim_idempotence fsJoinW ["data"]).2 _ _ _ _ "usa" rfl rfl
